import Mathlib

/-!
# Pending-request counter

A shallow embedding of `include/qemu/req-count.h` and `util/req-count.c`:
the counter `RequestCount`, the operations `request_count_begin`,
`request_count_end`, `request_count_wakeup` and `request_count_drain`,
and statements about them.

Conventions of the embedding

* `unsigned` is a natural number below `2 ^ 32`; every arithmetic step on it
  is reduced modulo `2 ^ 32` explicitly.
* The event loop (`block/aio.h`) is external.  Its answers
  (`qemu_get_aio_context`, `qemu_get_current_aio_context`,
  `aio_context_in_iothread`) are fields of `Env`, the work runner `aio_poll`
  is a function argument, and every call of `aio_wakeup` is appended to the
  `kicks` record of the `World`.
* Loops take a bound on the number of `aio_poll` invocations.
-/

namespace ReqCount

/-! ## Data model -/

/-- Handle of an event loop (`AioContext *`). -/
abbrev AioContext := Nat

/-- Modulus of the C type `unsigned`. -/
def UINT_MODULUS : Nat := 4294967296

/-- Counter state, `struct RequestCount`. -/
structure RequestCount where
  count : Nat
  wakeup : Bool
deriving DecidableEq, Repr

/-- Reserved bit declared by the header next to the structure. -/
def REQUEST_COUNT_NEED_WAKEUP : Nat := 0x80000000

/-- State of the program: the counter, the record of `aio_wakeup` calls issued
so far (oldest first), and `ext`, which stands for all state outside the
counter (pending work of the event loops and the like).  The four functions
never look at `ext`; a work runner may use it freely, so its behaviour may
change from one invocation to the next. -/
structure World where
  r : RequestCount
  kicks : List AioContext
  ext : Nat
deriving DecidableEq, Repr

/-- Answers of the event-loop layer as seen by the calling thread. -/
structure Env where
  qemu_get_aio_context : AioContext
  qemu_get_current_aio_context : AioContext
  aio_context_in_iothread : AioContext → Bool

/-- The zero-initialised counter with no kick issued yet. -/
def World.zero : World := ⟨⟨0, false⟩, [], 0⟩

/-! ## Atomic primitives (`qemu/atomic.h`) on an `unsigned` cell -/

/-- Value of `atomic_read(ptr)`. -/
def atomic_read {α : Type} (v : α) : α := v

/-- Cell content after `atomic_inc(ptr)`. -/
def atomic_inc (v : Nat) : Nat := (v + 1) % UINT_MODULUS

/-- Conversion `unsigned` to `int` as done by `int cnt = r->count - 1`. -/
def to_int (v : Nat) : Int :=
  if v < 2147483648 then (v : Int) else (v : Int) - 4294967296

/-- Fetch-and-decrement, `atomic_fetch_dec`: the pair of the cell content after
the operation and the value the expression yields, which is the content
fetched before the decrement (as for `__atomic_fetch_sub (ptr, 1, SEQ_CST)`).
The extra operand `cnt` passed by `request_count_end` equals the decremented
content and is not consulted. -/
def atomic_fetch_dec (v : Nat) (_cnt : Int) : Nat × Nat :=
  ((v + (UINT_MODULUS - 1)) % UINT_MODULUS, v)

/-! ## Event-loop calls -/

/-- Record of one call `aio_wakeup(ctx)`. -/
def aio_wakeup (ctx : AioContext) (w : World) : World :=
  { w with kicks := w.kicks ++ [ctx] }

/-- Behaviour of `aio_poll(ctx, blocking)`: the world it leaves behind, or
`none` when the call never comes back. -/
abbrev AioPoll := AioContext → Bool → World → Option World

/-! ## The operations -/

/-- Operation `request_count_begin`: `atomic_inc(&r->count)`. -/
def request_count_begin (w : World) : World :=
  { w with r := { w.r with count := atomic_inc w.r.count } }

/-- Operation `request_count_wakeup`: when `atomic_read(&r->wakeup)` is set,
`aio_wakeup(qemu_get_aio_context())`. -/
def request_count_wakeup (env : Env) (w : World) : World :=
  if atomic_read w.r.wakeup then
    aio_wakeup env.qemu_get_aio_context w
  else
    w

/-- Operation `request_count_end`: `cnt` is `r->count - 1` converted to `int`,
`fd` is the effect and the value of `atomic_fetch_dec(&r->count, cnt)`, and
`request_count_wakeup` is called when that value is 0. -/
def request_count_end (env : Env) (w : World) : World :=
  let cnt : Int := to_int ((w.r.count + (UINT_MODULUS - 1)) % UINT_MODULUS)
  let fd := atomic_fetch_dec w.r.count cnt
  let w1 : World := { w with r := { w.r with count := fd.1 } }
  if fd.2 = 0 then request_count_wakeup env w1 else w1

/-- How an activation of `request_count_drain` ends. -/
inductive Outcome where
  | returned (w : World)
  | assert_failed (w : World)
  | hung
  | out_of_fuel
deriving DecidableEq, Repr

/-- One `aio_poll` invocation: its arguments and the counter at the call. -/
structure PollCall where
  ctx : AioContext
  blocking : Bool
  r : RequestCount
deriving DecidableEq, Repr

/-- Result of an activation together with the `aio_poll` invocations the
activation itself made, oldest first. -/
structure Run where
  outcome : Outcome
  polled : List PollCall
deriving DecidableEq, Repr

/-- The loop `while (atomic_read(&r->count)) { aio_poll(c, true); }` with at
most `fuel` invocations of `aio_poll`. -/
def drain_loop (aio_poll : AioPoll) (c : AioContext) : Nat → World → Run
  | 0, w =>
    if atomic_read w.r.count ≠ 0 then ⟨Outcome.out_of_fuel, []⟩
    else ⟨Outcome.returned w, []⟩
  | fuel + 1, w =>
    if atomic_read w.r.count ≠ 0 then
      match aio_poll c true w with
      | none => ⟨Outcome.hung, [⟨c, true, w.r⟩]⟩
      | some w1 =>
        let rest := drain_loop aio_poll c fuel w1
        ⟨rest.outcome, ⟨c, true, w.r⟩ :: rest.polled⟩
    else ⟨Outcome.returned w, []⟩

/-- Tail of the cross-thread branch: `atomic_set(&r->wakeup, false)` once the
loop has come back. -/
def clear_wakeup (run : Run) : Run :=
  match run.outcome with
  | Outcome.returned w => ⟨Outcome.returned { w with r := { w.r with wakeup := false } }, run.polled⟩
  | _ => run

/-- Operation `request_count_drain`.  In the iothread of `ctx` it is the loop
polling `ctx`.  Elsewhere the two assertions come first, then
`atomic_mb_set(&r->wakeup, true)`, the loop polling the controller context,
and `atomic_set(&r->wakeup, false)`. -/
def request_count_drain (env : Env) (aio_poll : AioPoll) (fuel : Nat)
    (ctx : AioContext) (w : World) : Run :=
  if env.aio_context_in_iothread ctx then
    drain_loop aio_poll ctx fuel w
  else if env.qemu_get_current_aio_context ≠ env.qemu_get_aio_context then
    ⟨Outcome.assert_failed w, []⟩
  else if w.r.wakeup then
    ⟨Outcome.assert_failed w, []⟩
  else
    clear_wakeup
      (drain_loop aio_poll env.qemu_get_aio_context fuel
        { w with r := { w.r with wakeup := true } })

/-! ## Sequential callers -/

/-- One call of the interface by some thread. -/
inductive Op where
  | begin
  | end_
  | wakeup
  | drain (ctx : AioContext)
deriving DecidableEq, Repr

/-- Execution of one call. -/
def run_op (env : Env) (aio_poll : AioPoll) (fuel : Nat) : Op → World → Run
  | Op.begin, w => ⟨Outcome.returned (request_count_begin w), []⟩
  | Op.end_, w => ⟨Outcome.returned (request_count_end env w), []⟩
  | Op.wakeup, w => ⟨Outcome.returned (request_count_wakeup env w), []⟩
  | Op.drain ctx, w => request_count_drain env aio_poll fuel ctx w

/-- Whether a call runs the cross-thread branch of `request_count_drain`. -/
def is_cross (env : Env) : Op → Bool
  | Op.drain ctx => !env.aio_context_in_iothread ctx
  | _ => false

/-- A sequence of calls, each with the event-loop answers of its caller, run
one after the other until one of them does not return.  Next to the outcome
it yields every `aio_poll` invocation made by the calls, tagged with
`is_cross` of the call that made it. -/
def run_ops (aio_poll : AioPoll) (fuel : Nat) :
    List (Env × Op) → World → Outcome × List (Bool × PollCall)
  | [], w => (Outcome.returned w, [])
  | (env, op) :: rest, w =>
    let run := run_op env aio_poll fuel op w
    let tagged := run.polled.map (fun pc => (is_cross env op, pc))
    match run.outcome with
    | Outcome.returned w1 =>
      let tl := run_ops aio_poll fuel rest w1
      (tl.1, tagged ++ tl.2)
    | o => (o, tagged)

/-- The two calls that bracket a request. -/
inductive Req where
  | begin
  | end_
deriving DecidableEq, Repr

/-- Execution of one bracketing call. -/
def apply_req (env : Env) : Req → World → World
  | Req.begin, w => request_count_begin w
  | Req.end_, w => request_count_end env w

/-- Execution of a sequence of bracketing calls, first call first. -/
def run_reqs (env : Env) (l : List Req) (w : World) : World :=
  l.foldl (fun acc q => apply_req env q acc) w

/-- Number of `request_count_begin` calls in a sequence. -/
def begins (l : List Req) : Nat := l.count Req.begin

/-- Number of `request_count_end` calls in a sequence. -/
def ends (l : List Req) : Nat := l.count Req.end_

/-! ## Work runners -/

/-- A work runner leaves the wakeup flag as it found it. -/
def FlagPreserving (p : AioPoll) : Prop :=
  ∀ c b w w1, p c b w = some w1 → w1.r.wakeup = w.r.wakeup

/-- On context `ctx` every blocking invocation of the work runner comes back
and its effect on the counter is that of one `request_count_end`. -/
def EndsOne (env : Env) (p : AioPoll) (ctx : AioContext) : Prop :=
  ∀ w, ∃ w1, p ctx true w = some w1 ∧ w1.r = (request_count_end env w).r

/-- Work runner whose unit completes one request. -/
def poll_end (env : Env) : AioPoll :=
  fun _ _ w => some (request_count_end env w)

/-- Work runner that alternates between coming back without having done
anything for the counter and completing one request; `ext` remembers which
of the two is next. -/
def poll_spurious (env : Env) : AioPoll :=
  fun _ _ w =>
    if w.ext = 0 then some { w with ext := 1 }
    else some (request_count_end env { w with ext := 0 })

/-- Work runner whose unit calls `request_count_drain` on the context being
polled, the nested activation being served by the runner `inner`. -/
def poll_nested (env : Env) (inner : AioPoll) (fuel : Nat) : AioPoll :=
  fun c _ w =>
    match (request_count_drain env inner fuel c w).outcome with
    | Outcome.returned w1 => some w1
    | _ => none

/-! ## Two threads, sequentially consistent interleaving

The drainer runs the cross-thread branch of `request_count_drain` up to its
first read of the count; the owner of the counter runs `request_count_end`.
Both sides use full barriers, so their four accesses are taken as atomic
steps of one interleaving. -/

/-- The two threads. -/
inductive Thread where
  | drainer
  | ender
deriving DecidableEq, Repr

/-- Shared memory plus the registers of both threads. -/
structure Machine where
  w : World
  drain_pc : Nat
  drain_read : Option Nat
  end_pc : Nat
  end_fetched : Nat
deriving DecidableEq, Repr

/-- Start of the race on a given counter. -/
def Machine.init (r : RequestCount) : Machine := ⟨⟨r, [], 0⟩, 0, none, 0, 0⟩

/-- One atomic step of the chosen thread; a finished thread stays put. -/
def step (env : Env) (m : Machine) : Thread → Machine
  | Thread.drainer =>
    if m.drain_pc = 0 then
      { m with w := { m.w with r := { m.w.r with wakeup := true } }, drain_pc := 1 }
    else if m.drain_pc = 1 then
      { m with drain_read := some (atomic_read m.w.r.count), drain_pc := 2 }
    else m
  | Thread.ender =>
    if m.end_pc = 0 then
      let cnt : Int := to_int ((m.w.r.count + (UINT_MODULUS - 1)) % UINT_MODULUS)
      let fd := atomic_fetch_dec m.w.r.count cnt
      { m with w := { m.w with r := { m.w.r with count := fd.1 } },
               end_fetched := fd.2, end_pc := 1 }
    else if m.end_pc = 1 then
      if m.end_fetched = 0 then
        { m with w := request_count_wakeup env m.w, end_pc := 2 }
      else
        { m with end_pc := 2 }
    else m

/-- Execution of a schedule. -/
def exec (env : Env) (sched : List Thread) (m : Machine) : Machine :=
  sched.foldl (step env) m

/-- All interleavings of the two steps of the drainer with the two steps of
the ender. -/
def interleavings : List (List Thread) :=
  [ [Thread.drainer, Thread.drainer, Thread.ender, Thread.ender],
    [Thread.drainer, Thread.ender, Thread.drainer, Thread.ender],
    [Thread.drainer, Thread.ender, Thread.ender, Thread.drainer],
    [Thread.ender, Thread.drainer, Thread.drainer, Thread.ender],
    [Thread.ender, Thread.drainer, Thread.ender, Thread.drainer],
    [Thread.ender, Thread.ender, Thread.drainer, Thread.drainer] ]

/-- Event-loop answers used in the worked examples: controller context `0`,
caller on the controller thread, context `1` owned by another thread. -/
def env_main : Env := ⟨0, 0, fun c => c == 0⟩

/-- Event-loop answers of a caller running on the thread of every context it
names, with controller context `0`. -/
def env_iothread : Env := ⟨0, 1, fun _ => true⟩

/-! ## Basic facts -/

theorem uint_dec_pos (n : Nat) (h0 : n ≠ 0) (h : n < UINT_MODULUS) :
    (n + (UINT_MODULUS - 1)) % UINT_MODULUS = n - 1 := by
  unfold UINT_MODULUS at *
  omega

theorem uint_inc_small (n : Nat) (h : n + 1 < UINT_MODULUS) :
    (n + 1) % UINT_MODULUS = n + 1 := by
  unfold UINT_MODULUS at *
  omega

theorem to_int_round_trip (x : Nat) (h : x < UINT_MODULUS) :
    (to_int x % 4294967296).toNat = x := by
  unfold UINT_MODULUS at h
  unfold to_int
  split <;> omega

theorem atomic_fetch_dec_stores_cnt (v : Nat) :
    (to_int (atomic_fetch_dec v 0).1 % 4294967296).toNat = (atomic_fetch_dec v 0).1 :=
  to_int_round_trip _ (Nat.mod_lt _ (by decide))

theorem request_count_wakeup_r (env : Env) (w : World) :
    (request_count_wakeup env w).r = w.r := by
  unfold request_count_wakeup aio_wakeup atomic_read
  split <;> rfl

theorem request_count_end_r (env : Env) (w : World) :
    (request_count_end env w).r =
      ⟨(w.r.count + (UINT_MODULUS - 1)) % UINT_MODULUS, w.r.wakeup⟩ := by
  simp only [request_count_end, atomic_fetch_dec]
  split
  · rw [request_count_wakeup_r]
  · rfl

theorem drain_loop_zero (p : AioPoll) (c : AioContext) (fuel : Nat) (w : World)
    (h : w.r.count = 0) : drain_loop p c fuel w = ⟨Outcome.returned w, []⟩ := by
  cases fuel <;> simp [drain_loop, atomic_read, h]

theorem drain_loop_returned_count (p : AioPoll) (c : AioContext) :
    ∀ (fuel : Nat) (w w1 : World),
      (drain_loop p c fuel w).outcome = Outcome.returned w1 → w1.r.count = 0 := by
  intro fuel
  induction fuel with
  | zero =>
    intro w w1 h
    by_cases hc : w.r.count = 0
    · simp [drain_loop, atomic_read, hc] at h
      rw [← h]; exact hc
    · simp [drain_loop, atomic_read, hc] at h
  | succ n ih =>
    intro w w1 h
    by_cases hc : w.r.count = 0
    · simp [drain_loop, atomic_read, hc] at h
      rw [← h]; exact hc
    · simp only [drain_loop, atomic_read, ne_eq, hc, not_false_eq_true, if_true] at h
      cases hp : p c true w with
      | none => simp [hp] at h
      | some w2 =>
        simp only [hp] at h
        exact ih w2 w1 h

theorem drain_loop_not_assert (p : AioPoll) (c : AioContext) :
    ∀ (fuel : Nat) (w w1 : World),
      (drain_loop p c fuel w).outcome ≠ Outcome.assert_failed w1 := by
  intro fuel
  induction fuel with
  | zero =>
    intro w w1
    by_cases hc : w.r.count = 0 <;> simp [drain_loop, atomic_read, hc]
  | succ n ih =>
    intro w w1
    by_cases hc : w.r.count = 0
    · simp [drain_loop, atomic_read, hc]
    · simp only [drain_loop, atomic_read, ne_eq, hc, not_false_eq_true, if_true]
      cases hp : p c true w with
      | none => simp
      | some w2 => exact ih w2 w1

theorem drain_loop_polled_ctx (p : AioPoll) (c : AioContext) :
    ∀ (fuel : Nat) (w : World) (pc : PollCall),
      pc ∈ (drain_loop p c fuel w).polled → pc.ctx = c ∧ pc.blocking = true := by
  intro fuel
  induction fuel with
  | zero =>
    intro w pc h
    by_cases hc : w.r.count = 0 <;> simp [drain_loop, atomic_read, hc] at h
  | succ n ih =>
    intro w pc h
    by_cases hc : w.r.count = 0
    · simp [drain_loop, atomic_read, hc] at h
    · simp only [drain_loop, atomic_read, ne_eq, hc, not_false_eq_true, if_true] at h
      cases hp : p c true w with
      | none =>
        simp [hp] at h
        subst h; exact ⟨rfl, rfl⟩
      | some w2 =>
        simp only [hp, List.mem_cons] at h
        rcases h with h | h
        · subst h; exact ⟨rfl, rfl⟩
        · exact ih w2 pc h

theorem clear_wakeup_polled (run : Run) : (clear_wakeup run).polled = run.polled := by
  unfold clear_wakeup
  split <;> rfl

theorem clear_wakeup_returned (run : Run) (w1 : World)
    (h : (clear_wakeup run).outcome = Outcome.returned w1) :
    ∃ w0, run.outcome = Outcome.returned w0 ∧
      w1 = { w0 with r := { w0.r with wakeup := false } } := by
  unfold clear_wakeup at h
  split at h
  · rename_i w0 hw0
    refine ⟨w0, hw0, ?_⟩
    simp at h
    exact h.symm
  · rename_i hne
    exact absurd h (hne w1)

theorem clear_wakeup_assert (run : Run) (w1 : World)
    (h : (clear_wakeup run).outcome = Outcome.assert_failed w1) :
    run.outcome = Outcome.assert_failed w1 := by
  unfold clear_wakeup at h
  split at h
  · simp at h
  · exact h

theorem drain_loop_ends (env : Env) (p : AioPoll) (c : AioContext) (hp : EndsOne env p c) :
    ∀ (n fuel : Nat) (w : World), w.r.count = n → n < UINT_MODULUS → n ≤ fuel →
      ∃ w1, (drain_loop p c fuel w).outcome = Outcome.returned w1 ∧
        w1.r = ⟨0, w.r.wakeup⟩ ∧ (drain_loop p c fuel w).polled.length = n := by
  intro n
  induction n with
  | zero =>
    intro fuel w hc _ _
    rw [drain_loop_zero p c fuel w hc]
    exact ⟨w, rfl, by rw [← hc], rfl⟩
  | succ k ih =>
    intro fuel w hc hlt hle
    obtain ⟨f, rfl⟩ : ∃ f, fuel = f + 1 := ⟨fuel - 1, by omega⟩
    obtain ⟨w2, hp2, hr2⟩ := hp w
    have hne : w.r.count ≠ 0 := by omega
    have hr2c : w2.r.count = k := by
      rw [hr2, request_count_end_r]
      show (w.r.count + (UINT_MODULUS - 1)) % UINT_MODULUS = k
      rw [uint_dec_pos _ hne (by omega)]
      omega
    have hr2w : w2.r.wakeup = w.r.wakeup := by
      rw [hr2, request_count_end_r]
    obtain ⟨w1, ho, hr, hl⟩ := ih f w2 hr2c (by omega) (by omega)
    refine ⟨w1, ?_, ?_, ?_⟩
    · simp only [drain_loop, atomic_read, ne_eq, hne, not_false_eq_true, if_true, hp2]
      exact ho
    · rw [hr, hr2w]
    · simp only [drain_loop, atomic_read, ne_eq, hne, not_false_eq_true, if_true, hp2,
        List.length_cons]
      rw [hl]

theorem drain_loop_flag (p : AioPoll) (c : AioContext) (hp : FlagPreserving p) :
    ∀ (fuel : Nat) (w : World),
      (∀ pc ∈ (drain_loop p c fuel w).polled, pc.r.wakeup = w.r.wakeup) ∧
      (∀ w1, (drain_loop p c fuel w).outcome = Outcome.returned w1 →
        w1.r.wakeup = w.r.wakeup) := by
  intro fuel
  induction fuel with
  | zero =>
    intro w
    by_cases hc : w.r.count = 0
    · rw [drain_loop_zero p c 0 w hc]
      refine ⟨by simp, ?_⟩
      intro w1 h
      simp at h
      rw [h]
    · simp [drain_loop, atomic_read, hc]
  | succ n ih =>
    intro w
    by_cases hc : w.r.count = 0
    · rw [drain_loop_zero p c (n + 1) w hc]
      refine ⟨by simp, ?_⟩
      intro w1 h
      simp at h
      rw [h]
    · simp only [drain_loop, atomic_read, ne_eq, hc, not_false_eq_true, if_true]
      cases hq : p c true w with
      | none => simp
      | some w2 =>
        have hw2 := hp c true w w2 hq
        obtain ⟨ih1, ih2⟩ := ih w2
        constructor
        · intro pc hpc
          simp only [List.mem_cons] at hpc
          rcases hpc with h | h
          · rw [h]
          · rw [ih1 pc h, hw2]
        · intro w1 h
          rw [ih2 w1 h, hw2]

theorem request_count_begin_flag (w : World) :
    (request_count_begin w).r.wakeup = w.r.wakeup := rfl

theorem request_count_end_flag (env : Env) (w : World) :
    (request_count_end env w).r.wakeup = w.r.wakeup := by
  rw [request_count_end_r]

theorem poll_end_flag (env : Env) : FlagPreserving (poll_end env) := by
  intro c b w w1 h
  simp only [poll_end, Option.some.injEq] at h
  rw [← h, request_count_end_flag]

theorem poll_end_ends_one (env : Env) (c : AioContext) : EndsOne env (poll_end env) c :=
  fun w => ⟨request_count_end env w, rfl, rfl⟩

theorem drain_same_thread_flag (env : Env) (p : AioPoll) (hp : FlagPreserving p)
    (fuel : Nat) (ctx : AioContext) (w : World)
    (hin : env.aio_context_in_iothread ctx = true) :
    (∀ pc ∈ (request_count_drain env p fuel ctx w).polled, pc.r.wakeup = w.r.wakeup) ∧
    (∀ w1, (request_count_drain env p fuel ctx w).outcome = Outcome.returned w1 →
      w1.r.wakeup = w.r.wakeup) := by
  unfold request_count_drain
  rw [hin]
  simp only [if_true]
  exact drain_loop_flag p ctx hp fuel w

theorem drain_cross_thread_flag (env : Env) (p : AioPoll) (hp : FlagPreserving p)
    (fuel : Nat) (ctx : AioContext) (w : World)
    (hin : env.aio_context_in_iothread ctx = false) (hw : w.r.wakeup = false) :
    request_count_drain env p fuel ctx w =
      (if env.qemu_get_current_aio_context ≠ env.qemu_get_aio_context then
        ⟨Outcome.assert_failed w, []⟩
      else
        clear_wakeup (drain_loop p env.qemu_get_aio_context fuel
          { w with r := { w.r with wakeup := true } })) ∧
    (∀ pc ∈ (request_count_drain env p fuel ctx w).polled, pc.r.wakeup = true) ∧
    (∀ w1, (request_count_drain env p fuel ctx w).outcome = Outcome.returned w1 →
      w1.r.wakeup = false) := by
  unfold request_count_drain
  rw [hin, hw]
  simp only [Bool.false_eq_true, if_false]
  refine ⟨trivial, ?_, ?_⟩
  · split
    · simp
    · intro pc hpc
      rw [clear_wakeup_polled] at hpc
      exact (drain_loop_flag p _ hp fuel _).1 pc hpc
  · split
    · simp
    · intro w1 h
      obtain ⟨w0, _, rfl⟩ := clear_wakeup_returned _ w1 h
      rfl

theorem run_op_flag (env : Env) (p : AioPoll) (hp : FlagPreserving p) (fuel : Nat)
    (op : Op) (w : World) (hw : w.r.wakeup = false) :
    (∀ pc ∈ (run_op env p fuel op w).polled, pc.r.wakeup = is_cross env op) ∧
    (∀ w1, (run_op env p fuel op w).outcome = Outcome.returned w1 →
      w1.r.wakeup = false) := by
  cases op with
  | begin =>
    refine ⟨by simp [run_op], ?_⟩
    intro w1 h
    simp only [run_op, Outcome.returned.injEq] at h
    rw [← h, request_count_begin_flag, hw]
  | end_ =>
    refine ⟨by simp [run_op], ?_⟩
    intro w1 h
    simp only [run_op, Outcome.returned.injEq] at h
    rw [← h, request_count_end_flag, hw]
  | wakeup =>
    refine ⟨by simp [run_op], ?_⟩
    intro w1 h
    simp only [run_op, Outcome.returned.injEq] at h
    rw [← h, request_count_wakeup_r, hw]
  | drain ctx =>
    simp only [run_op, is_cross]
    cases hin : env.aio_context_in_iothread ctx
    · obtain ⟨_, h2, h3⟩ := drain_cross_thread_flag env p hp fuel ctx w hin hw
      exact ⟨fun pc hpc => by simpa using h2 pc hpc, h3⟩
    · obtain ⟨h2, h3⟩ := drain_same_thread_flag env p hp fuel ctx w hin
      exact ⟨fun pc hpc => by rw [h2 pc hpc, hw]; rfl, fun w1 h => by rw [h3 w1 h, hw]⟩

theorem run_ops_flag (p : AioPoll) (hp : FlagPreserving p) (fuel : Nat) :
    ∀ (ops : List (Env × Op)) (w : World), w.r.wakeup = false →
      (∀ e ∈ (run_ops p fuel ops w).2, e.2.r.wakeup = e.1) ∧
      (∀ w1, (run_ops p fuel ops w).1 = Outcome.returned w1 → w1.r.wakeup = false) := by
  intro ops
  induction ops with
  | nil =>
    intro w hw
    refine ⟨by simp [run_ops], ?_⟩
    intro w1 h
    simp only [run_ops, Outcome.returned.injEq] at h
    rw [← h, hw]
  | cons a rest ih =>
    intro w hw
    obtain ⟨env, op⟩ := a
    obtain ⟨h1, h2⟩ := run_op_flag env p hp fuel op w hw
    simp only [run_ops]
    cases ho : (run_op env p fuel op w).outcome with
    | returned w2 =>
      obtain ⟨ih1, ih2⟩ := ih w2 (h2 w2 ho)
      simp only
      constructor
      · intro e he
        simp only [List.mem_append, List.mem_map] at he
        rcases he with ⟨pc, hpc, rfl⟩ | he
        · exact h1 pc hpc
        · exact ih1 e he
      · exact ih2
    | assert_failed w2 =>
      simp only
      constructor
      · intro e he
        simp only [List.mem_map] at he
        obtain ⟨pc, hpc, rfl⟩ := he
        exact h1 pc hpc
      · intro w1 h; simp at h
    | hung =>
      simp only
      constructor
      · intro e he
        simp only [List.mem_map] at he
        obtain ⟨pc, hpc, rfl⟩ := he
        exact h1 pc hpc
      · intro w1 h; simp at h
    | out_of_fuel =>
      simp only
      constructor
      · intro e he
        simp only [List.mem_map] at he
        obtain ⟨pc, hpc, rfl⟩ := he
        exact h1 pc hpc
      · intro w1 h; simp at h

theorem run_reqs_snoc (env : Env) (l : List Req) (q : Req) (w : World) :
    run_reqs env (l ++ [q]) w = apply_req env q (run_reqs env l w) := by
  simp [run_reqs, List.foldl_append]

theorem take_succ_cases (ops : List Req) (k : Nat) :
    ops.take (k + 1) = ops.take k ∨ ∃ q, ops.take (k + 1) = ops.take k ++ [q] := by
  rw [List.take_succ]
  cases ops[k]? with
  | none => left; simp
  | some q => right; exact ⟨q, rfl⟩

theorem begins_snoc (l : List Req) (q : Req) :
    begins (l ++ [q]) = begins l + (if q = Req.begin then 1 else 0) := by
  cases q <;> simp [begins, List.count_append]

theorem ends_snoc (l : List Req) (q : Req) :
    ends (l ++ [q]) = ends l + (if q = Req.end_ then 1 else 0) := by
  cases q <;> simp [ends, List.count_append]

theorem drain_same_thread_ends (env : Env) (p : AioPoll) (fuel : Nat)
    (ctx : AioContext) (w : World) (hin : env.aio_context_in_iothread ctx = true)
    (hp : EndsOne env p ctx) (hv : w.r.count < UINT_MODULUS) (hf : w.r.count ≤ fuel) :
    ∃ w1, (request_count_drain env p fuel ctx w).outcome = Outcome.returned w1 ∧
      w1.r = ⟨0, w.r.wakeup⟩ ∧
      (request_count_drain env p fuel ctx w).polled.length = w.r.count := by
  unfold request_count_drain
  rw [hin]
  simp only [if_true]
  exact drain_loop_ends env p ctx hp _ fuel w rfl hv hf

theorem request_count_drain_flag_set (env : Env) (p : AioPoll) (fuel : Nat)
    (ctx : AioContext) (w : World) (hin : env.aio_context_in_iothread ctx = false)
    (hw : w.r.wakeup = true) :
    request_count_drain env p fuel ctx w = ⟨Outcome.assert_failed w, []⟩ := by
  unfold request_count_drain
  rw [hin, hw]
  simp

theorem poll_nested_flag (env : Env) (inner : AioPoll) (fuel : Nat)
    (hp : FlagPreserving inner) : FlagPreserving (poll_nested env inner fuel) := by
  intro c b w w1 h
  unfold poll_nested at h
  cases ho : (request_count_drain env inner fuel c w).outcome with
  | returned w2 =>
    rw [ho] at h
    simp only [Option.some.injEq] at h
    subst h
    cases hin : env.aio_context_in_iothread c
    · cases hw : w.r.wakeup
      · exact (drain_cross_thread_flag env inner hp fuel c w hin hw).2.2 w2 ho
      · exfalso
        have hx := request_count_drain_flag_set env inner fuel c w hin hw
        rw [hx] at ho
        simp at ho
    · exact (drain_same_thread_flag env inner hp fuel c w hin).2 w2 ho
  | assert_failed w2 => rw [ho] at h; simp at h
  | hung => rw [ho] at h; simp at h
  | out_of_fuel => rw [ho] at h; simp at h

theorem ender_steps (env : Env) (m : Machine) (h : m.end_pc = 0) :
    (exec env [Thread.ender, Thread.ender] m).w = request_count_end env m.w := by
  obtain ⟨w, dpc, dr, epc, ef⟩ := m
  simp only at h
  subst h
  by_cases hc : w.r.count = 0
  · simp [exec, step, request_count_end, atomic_fetch_dec, hc]
  · simp [exec, step, request_count_end, atomic_fetch_dec, hc]

theorem drainer_steps (env : Env) (m : Machine) (h : m.drain_pc = 0) :
    (exec env [Thread.drainer, Thread.drainer] m).w.r = ⟨m.w.r.count, true⟩ ∧
    (exec env [Thread.drainer, Thread.drainer] m).drain_read = some m.w.r.count := by
  obtain ⟨w, dpc, dr, epc, ef⟩ := m
  simp only at h
  subst h
  simp [exec, step, atomic_read]

/-! ## The notify condition of `request_count_end` -/

/-- C1, evaluated on the code: the test in `request_count_end` compares the
value fetched before the decrement, so the notify step runs exactly when the
count was 0 before the call (and wraps to `UINT_MAX`), not when the decrement
produces 0.  In the scenario begin, begin,
end, end with the wakeup flag set, the count goes 2, 1, 0 and neither end
issues a kick, although the notify step on the final state would issue one. -/
theorem request_count_end_notifies_on_fetched_zero :
    (∀ (env : Env) (w : World), request_count_end env w =
      if w.r.count = 0 then
        request_count_wakeup env { w with r := { w.r with count := UINT_MODULUS - 1 } }
      else
        { w with r := { w.r with count := (w.r.count + (UINT_MODULUS - 1)) % UINT_MODULUS } }) ∧
    (request_count_begin (request_count_begin ⟨⟨0, true⟩, [], 0⟩) = ⟨⟨2, true⟩, [], 0⟩ ∧
     request_count_end env_main ⟨⟨2, true⟩, [], 0⟩ = ⟨⟨1, true⟩, [], 0⟩ ∧
     request_count_end env_main ⟨⟨1, true⟩, [], 0⟩ = ⟨⟨0, true⟩, [], 0⟩ ∧
     request_count_wakeup env_main ⟨⟨0, true⟩, [], 0⟩ = ⟨⟨0, true⟩, [0], 0⟩ ∧
     request_count_end env_main ⟨⟨0, true⟩, [], 0⟩ = ⟨⟨4294967295, true⟩, [0], 0⟩) := by
  refine ⟨?_, by decide⟩
  intro env w
  simp only [request_count_end, atomic_fetch_dec]
  by_cases h : w.r.count = 0
  · simp [h, UINT_MODULUS]
  · simp [h]

/-! ## Unmatched `request_count_end` -/

/-- C5, counterexample: on the zero-initialised counter `request_count_end`
comes back with the count wrapped to `2 ^ 32 - 1`. -/
theorem request_count_end_unmatched_wraps :
    (run_op env_main (poll_end env_main) 0 Op.end_ World.zero).outcome =
      Outcome.returned (request_count_end env_main World.zero) ∧
    (request_count_end env_main World.zero).r.count = 4294967295 := by
  decide

/-- C5, amended: `request_count_end` has no fatal path.  Called on a counter
whose count is 0 it returns, and it leaves the count at `2 ^ 32 - 1` and the
wakeup flag as it was. -/
theorem request_count_end_at_zero (env : Env) (p : AioPoll) (fuel : Nat) (w : World)
    (h : w.r.count = 0) :
    (run_op env p fuel Op.end_ w).outcome = Outcome.returned (request_count_end env w) ∧
    (request_count_end env w).r = ⟨UINT_MODULUS - 1, w.r.wakeup⟩ := by
  refine ⟨rfl, ?_⟩
  rw [request_count_end_r, h]
  simp [UINT_MODULUS]

/-- Witness for `request_count_end_at_zero` on a counter with the flag set. -/
theorem request_count_end_at_zero_witness :
    (⟨⟨0, true⟩, [3], 0⟩ : World).r.count = 0 ∧
    (request_count_end env_iothread ⟨⟨0, true⟩, [3], 0⟩).r = ⟨UINT_MODULUS - 1, true⟩ :=
  ⟨rfl, (request_count_end_at_zero env_iothread (poll_end env_iothread) 1
    ⟨⟨0, true⟩, [3], 0⟩ rfl).2⟩

/-! ## The notify step and the context that is polled -/

/-- C10: `request_count_wakeup` appends one kick of the controller context
when the flag is set and none otherwise, and leaves the counter untouched;
every `aio_poll` made by the cross-thread branch of `request_count_drain` is a
blocking poll of that same controller context, whatever `ctx` is. -/
theorem request_count_wakeup_kicks_controller (env : Env) (p : AioPoll) (fuel : Nat)
    (ctx : AioContext) (w : World) (hx : env.aio_context_in_iothread ctx = false) :
    request_count_wakeup env w =
      ⟨w.r, w.kicks ++ (if w.r.wakeup then [env.qemu_get_aio_context] else []), w.ext⟩ ∧
    ∀ pc ∈ (request_count_drain env p fuel ctx w).polled,
      pc.ctx = env.qemu_get_aio_context ∧ pc.blocking = true := by
  constructor
  · unfold request_count_wakeup aio_wakeup atomic_read
    cases hw : w.r.wakeup <;> simp
  · intro pc hpc
    unfold request_count_drain at hpc
    rw [hx] at hpc
    simp only [Bool.false_eq_true, if_false] at hpc
    split at hpc
    · simp at hpc
    · split at hpc
      · simp at hpc
      · rw [clear_wakeup_polled] at hpc
        exact drain_loop_polled_ctx p _ fuel _ pc hpc

/-- Witness for `request_count_wakeup_kicks_controller`: a drain of context 1
from the controller thread with two requests pending. -/
theorem request_count_wakeup_kicks_controller_witness :
    env_main.aio_context_in_iothread 1 = false ∧
    request_count_wakeup env_main ⟨⟨2, false⟩, [], 0⟩ = ⟨⟨2, false⟩, [], 0⟩ ∧
    (request_count_drain env_main (poll_end env_main) 5 1 ⟨⟨2, false⟩, [], 0⟩).polled =
      [⟨0, true, ⟨2, true⟩⟩, ⟨0, true, ⟨1, true⟩⟩] ∧
    ∀ pc ∈ (request_count_drain env_main (poll_end env_main) 5 1 ⟨⟨2, false⟩, [], 0⟩).polled,
      pc.ctx = 0 ∧ pc.blocking = true :=
  ⟨by decide, by decide, by decide,
    (request_count_wakeup_kicks_controller env_main (poll_end env_main) 5 1
      ⟨⟨2, false⟩, [], 0⟩ (by decide)).2⟩

/-! ## Exit condition of `request_count_drain` -/

/-- C2: whatever the caller, the work runner and the bound, an activation of
`request_count_drain` that returns does so in a state whose count is 0. -/
theorem request_count_drain_returns_at_zero (env : Env) (p : AioPoll) (fuel : Nat)
    (ctx : AioContext) (w w1 : World)
    (h : (request_count_drain env p fuel ctx w).outcome = Outcome.returned w1) :
    w1.r.count = 0 := by
  unfold request_count_drain at h
  split at h
  · exact drain_loop_returned_count p ctx fuel w w1 h
  · split at h
    · simp at h
    · split at h
      · simp at h
      · obtain ⟨w0, hw0, rfl⟩ := clear_wakeup_returned _ w1 h
        exact drain_loop_returned_count p _ fuel _ w0 hw0

/-- Witness for `request_count_drain_returns_at_zero`: a cross-thread drain
entered after two begins, served by a runner that comes back idle every
other time. -/
theorem request_count_drain_returns_at_zero_witness :
    (request_count_drain env_main (poll_spurious env_main) 4 1
        (request_count_begin (request_count_begin World.zero))).outcome =
      Outcome.returned World.zero ∧
    (request_count_drain env_main (poll_spurious env_main) 4 1
        (request_count_begin (request_count_begin World.zero))).polled.length = 4 ∧
    World.zero.r.count = 0 :=
  ⟨by decide, by decide,
    request_count_drain_returns_at_zero env_main (poll_spurious env_main) 4 1
      (request_count_begin (request_count_begin World.zero)) World.zero (by decide)⟩

/-! ## Assertions of `request_count_drain` -/

/-- C6: `request_count_drain` stops on an assertion exactly when the caller is
not on the thread of `ctx` and either its current context is not the
controller context or the wakeup flag is already set; it then has polled
nothing and the world is the one it was entered with.  In every other case
no assertion fails, whatever the work runner does. -/
theorem request_count_drain_assertions (env : Env) (p : AioPoll) (fuel : Nat)
    (ctx : AioContext) (w : World) :
    if env.aio_context_in_iothread ctx = false ∧
        (env.qemu_get_current_aio_context ≠ env.qemu_get_aio_context ∨ w.r.wakeup = true) then
      request_count_drain env p fuel ctx w = ⟨Outcome.assert_failed w, []⟩
    else
      ∀ w1, (request_count_drain env p fuel ctx w).outcome ≠ Outcome.assert_failed w1 := by
  unfold request_count_drain
  cases hin : env.aio_context_in_iothread ctx
  · by_cases hcur : env.qemu_get_current_aio_context = env.qemu_get_aio_context
    · cases hw : w.r.wakeup
      · simp only [hcur, ne_eq, not_true_eq_false, Bool.false_eq_true, or_self, and_false,
          if_false]
        intro w1 hcontra
        exact drain_loop_not_assert p _ fuel _ w1 (clear_wakeup_assert _ w1 hcontra)
      · simp [hcur]
    · simp [hcur]
  · simp only [Bool.true_eq_false, false_and, if_false, if_true]
    intro w1
    exact drain_loop_not_assert p ctx fuel w w1

/-! ## Counting -/

/-- C4: for a sequence of begin and end calls run on the zero-initialised
counter, in which no leading part holds more ends than begins and fewer than
`2 ^ 32` requests are outstanding after every leading part, the count after
every leading part, the whole sequence included, is its number of begins
minus its number of ends. -/
theorem count_is_begins_minus_ends (env : Env) (ops : List Req)
    (hbal : ∀ k, ends (ops.take k) ≤ begins (ops.take k))
    (hbound : ∀ k, begins (ops.take k) - ends (ops.take k) < UINT_MODULUS) :
    (∀ k, (run_reqs env (ops.take k) World.zero).r.count =
      begins (ops.take k) - ends (ops.take k)) ∧
    (run_reqs env ops World.zero).r.count = begins ops - ends ops := by
  have main : ∀ k, (run_reqs env (ops.take k) World.zero).r.count =
      begins (ops.take k) - ends (ops.take k) := by
    intro k
    induction k with
    | zero => simp [run_reqs, begins, ends, World.zero]
    | succ k ih =>
      rcases take_succ_cases ops k with h | ⟨q, h⟩
      · rw [h]; exact ih
      · have hb0 := hbal k
        have hd0 := hbound k
        have hb1 := hbal (k + 1)
        have hd1 := hbound (k + 1)
        rw [h, begins_snoc, ends_snoc] at hb1 hd1
        rw [h, run_reqs_snoc, begins_snoc, ends_snoc]
        cases q with
        | begin =>
          simp only [reduceCtorEq, if_true, if_false, Nat.add_zero] at hb1 hd1 ⊢
          show (atomic_inc (run_reqs env (ops.take k) World.zero).r.count) = _
          rw [ih]
          unfold atomic_inc
          rw [uint_inc_small _ (by omega)]
          omega
        | end_ =>
          simp only [reduceCtorEq, if_true, if_false, Nat.add_zero] at hb1 hd1 ⊢
          show (request_count_end env (run_reqs env (ops.take k) World.zero)).r.count = _
          rw [request_count_end_r, ih]
          show (begins (ops.take k) - ends (ops.take k) + (UINT_MODULUS - 1)) % UINT_MODULUS = _
          rw [uint_dec_pos _ (by omega) hd0]
          omega
  refine ⟨main, ?_⟩
  have h := main ops.length
  rwa [List.take_length] at h

/-- Witness for `count_is_begins_minus_ends`: begin, begin, end, begin, end,
end. -/
theorem count_is_begins_minus_ends_witness :
    (run_reqs env_main (List.take 4 [Req.begin, Req.begin, Req.end_, Req.begin, Req.end_, Req.end_])
        World.zero).r.count = 2 ∧
    (run_reqs env_main [Req.begin, Req.begin, Req.end_, Req.begin, Req.end_, Req.end_]
        World.zero).r.count = 0 := by
  have h := count_is_begins_minus_ends env_main
    [Req.begin, Req.begin, Req.end_, Req.begin, Req.end_, Req.end_]
    (by
      intro k
      rcases Nat.lt_or_ge k 7 with hk | hk
      · interval_cases k <;> decide
      · rw [List.take_of_length_le (by simpa using (by omega : 6 ≤ k))]
        decide)
    (by
      intro k
      rcases Nat.lt_or_ge k 7 with hk | hk
      · interval_cases k <;> decide
      · rw [List.take_of_length_le (by simpa using (by omega : 6 ≤ k))]
        decide)
  exact ⟨h.1 4, h.2⟩

/-! ## Same-thread drain -/

/-- C7: on the thread of `ctx`, a drain entered with count 0 returns at once
without any `aio_poll`, whatever the work runner is; entered with count `N`,
served by a runner whose every invocation has the effect of one
`request_count_end` on the counter, and allowed at least `N` invocations, it
returns with count 0 and the flag untouched after exactly `N` invocations. -/
theorem same_thread_drain_polls_count_times (env : Env) (p : AioPoll) (fuel : Nat)
    (ctx : AioContext) (w : World) (hin : env.aio_context_in_iothread ctx = true) :
    (w.r.count = 0 → request_count_drain env p fuel ctx w = ⟨Outcome.returned w, []⟩) ∧
    (EndsOne env p ctx → w.r.count < UINT_MODULUS → w.r.count ≤ fuel →
      ∃ w1, (request_count_drain env p fuel ctx w).outcome = Outcome.returned w1 ∧
        w1.r = ⟨0, w.r.wakeup⟩ ∧
        (request_count_drain env p fuel ctx w).polled.length = w.r.count) := by
  unfold request_count_drain
  rw [hin]
  simp only [if_true]
  exact ⟨drain_loop_zero p ctx fuel w, fun hp hv hf => drain_loop_ends env p ctx hp _ fuel w rfl hv hf⟩

/-- Witness for `same_thread_drain_polls_count_times`: three pending requests,
three invocations. -/
theorem same_thread_drain_polls_count_times_witness :
    env_iothread.aio_context_in_iothread 1 = true ∧
    request_count_drain env_iothread (poll_end env_iothread) 3 1 ⟨⟨0, false⟩, [], 0⟩ =
      ⟨Outcome.returned ⟨⟨0, false⟩, [], 0⟩, []⟩ ∧
    ∃ w1, (request_count_drain env_iothread (poll_end env_iothread) 3 1
        ⟨⟨3, false⟩, [], 0⟩).outcome = Outcome.returned w1 ∧
      w1.r = ⟨0, false⟩ ∧
      (request_count_drain env_iothread (poll_end env_iothread) 3 1
        ⟨⟨3, false⟩, [], 0⟩).polled.length = 3 :=
  ⟨rfl,
    (same_thread_drain_polls_count_times env_iothread (poll_end env_iothread) 3 1
      ⟨⟨0, false⟩, [], 0⟩ rfl).1 rfl,
    (same_thread_drain_polls_count_times env_iothread (poll_end env_iothread) 3 1
      ⟨⟨3, false⟩, [], 0⟩ rfl).2 (poll_end_ends_one env_iothread 1) (by decide) (by decide)⟩

/-- C9: on the thread of `ctx`, with `N > 0` requests pending, let the unit
run by the first `aio_poll` of an outer drain call `request_count_drain` on
the same context and counter, the nested activation being served by a runner
whose every invocation has the effect of one `request_count_end`.  Then the
nested activation ends as the top-level drain from that state does, it
returns with count 0, and the outer drain returns that very world after its
single `aio_poll`. -/
theorem nested_same_thread_drain (env : Env) (p : AioPoll) (inner_fuel outer_fuel : Nat)
    (ctx : AioContext) (w : World) (hin : env.aio_context_in_iothread ctx = true)
    (hp : EndsOne env p ctx) (hv : w.r.count < UINT_MODULUS) (hpos : w.r.count ≠ 0)
    (hfi : w.r.count ≤ inner_fuel) (hfo : 1 ≤ outer_fuel) :
    ∃ w1, (request_count_drain env p inner_fuel ctx w).outcome = Outcome.returned w1 ∧
      w1.r = ⟨0, w.r.wakeup⟩ ∧
      request_count_drain env (poll_nested env p inner_fuel) outer_fuel ctx w =
        ⟨Outcome.returned w1, [⟨ctx, true, w.r⟩]⟩ := by
  obtain ⟨w1, ho, hr, _⟩ :=
    (drain_same_thread_ends env p inner_fuel ctx w hin hp hv hfi)
  refine ⟨w1, ho, hr, ?_⟩
  obtain ⟨f, rfl⟩ : ∃ f, outer_fuel = f + 1 := ⟨outer_fuel - 1, by omega⟩
  have hz : w1.r.count = 0 := by rw [hr]
  have hn : poll_nested env p inner_fuel ctx true w = some w1 := by
    simp only [poll_nested, ho]
  unfold request_count_drain
  rw [hin]
  simp only [if_true, drain_loop, atomic_read, ne_eq, hpos, not_false_eq_true, hn]
  rw [drain_loop_zero _ ctx f w1 hz]

/-- Witness for `nested_same_thread_drain`: two pending requests. -/
theorem nested_same_thread_drain_witness :
    ∃ w1, (request_count_drain env_iothread (poll_end env_iothread) 2 1
        ⟨⟨2, false⟩, [], 0⟩).outcome = Outcome.returned w1 ∧
      w1.r = ⟨0, false⟩ ∧
      request_count_drain env_iothread (poll_nested env_iothread (poll_end env_iothread) 2) 1 1
        ⟨⟨2, false⟩, [], 0⟩ = ⟨Outcome.returned w1, [⟨1, true, ⟨2, false⟩⟩]⟩ :=
  nested_same_thread_drain env_iothread (poll_end env_iothread) 2 1 1 ⟨⟨2, false⟩, [], 0⟩ rfl
    (poll_end_ends_one env_iothread 1) (by decide) (by decide) (by decide) (by decide)

/-! ## Lifecycle of the wakeup flag -/

/-- C8: with a work runner that leaves the wakeup flag alone,
(1) begin, end and the notify step do not change the flag;
(2) a same-thread drain sees the entry value of the flag at each of its
`aio_poll` invocations and returns with that value;
(3) a cross-thread drain entered with the flag clear either stops on the
controller assertion or runs its loop, first read of the count included, on
the world with the flag set, sees the flag set at each of its `aio_poll`
invocations, and returns with the flag clear;
(4) in a sequence of calls run on the zero-initialised counter, every
`aio_poll` invocation sees the flag set exactly when it is made by a
cross-thread drain, and the flag is clear when the sequence has returned. -/
theorem wakeup_flag_lifecycle (p : AioPoll) (hp : FlagPreserving p) :
    (∀ (env : Env) (w : World),
      (request_count_begin w).r.wakeup = w.r.wakeup ∧
      (request_count_end env w).r.wakeup = w.r.wakeup ∧
      (request_count_wakeup env w).r.wakeup = w.r.wakeup) ∧
    (∀ (env : Env) (fuel : Nat) (ctx : AioContext) (w : World),
      env.aio_context_in_iothread ctx = true →
        (∀ pc ∈ (request_count_drain env p fuel ctx w).polled, pc.r.wakeup = w.r.wakeup) ∧
        (∀ w1, (request_count_drain env p fuel ctx w).outcome = Outcome.returned w1 →
          w1.r.wakeup = w.r.wakeup)) ∧
    (∀ (env : Env) (fuel : Nat) (ctx : AioContext) (w : World),
      env.aio_context_in_iothread ctx = false → w.r.wakeup = false →
        request_count_drain env p fuel ctx w =
          (if env.qemu_get_current_aio_context ≠ env.qemu_get_aio_context then
            ⟨Outcome.assert_failed w, []⟩
          else
            clear_wakeup (drain_loop p env.qemu_get_aio_context fuel
              { w with r := { w.r with wakeup := true } })) ∧
        (∀ pc ∈ (request_count_drain env p fuel ctx w).polled, pc.r.wakeup = true) ∧
        (∀ w1, (request_count_drain env p fuel ctx w).outcome = Outcome.returned w1 →
          w1.r.wakeup = false)) ∧
    (∀ (fuel : Nat) (ops : List (Env × Op)),
      (∀ e ∈ (run_ops p fuel ops World.zero).2, e.2.r.wakeup = e.1) ∧
      (∀ w1, (run_ops p fuel ops World.zero).1 = Outcome.returned w1 →
        w1.r.wakeup = false)) := by
  refine ⟨?_, ?_, ?_, ?_⟩
  · intro env w
    exact ⟨request_count_begin_flag w, request_count_end_flag env w,
      by rw [request_count_wakeup_r]⟩
  · intro env fuel ctx w hin
    exact drain_same_thread_flag env p hp fuel ctx w hin
  · intro env fuel ctx w hin hw
    exact drain_cross_thread_flag env p hp fuel ctx w hin hw
  · intro fuel ops
    exact run_ops_flag p hp fuel ops World.zero rfl

/-- Witness for `wakeup_flag_lifecycle`: begin, begin, a cross-thread drain of
context 1 from the controller thread, begin, a same-thread drain of context 1,
all served by a runner that completes one request per invocation. -/
theorem wakeup_flag_lifecycle_witness :
    FlagPreserving (poll_end env_main) ∧
    run_ops (poll_end env_main) 4
        [(env_main, Op.begin), (env_main, Op.begin), (env_main, Op.drain 1),
         (env_iothread, Op.begin), (env_iothread, Op.drain 1)] World.zero =
      (Outcome.returned World.zero,
        [(true, ⟨0, true, ⟨2, true⟩⟩), (true, ⟨0, true, ⟨1, true⟩⟩),
         (false, ⟨1, true, ⟨1, false⟩⟩)]) ∧
    (∀ e ∈ (run_ops (poll_end env_main) 4
        [(env_main, Op.begin), (env_main, Op.begin), (env_main, Op.drain 1),
         (env_iothread, Op.begin), (env_iothread, Op.drain 1)] World.zero).2,
      e.2.r.wakeup = e.1) :=
  ⟨poll_end_flag env_main, by decide,
    ((wakeup_flag_lifecycle (poll_end env_main) (poll_end_flag env_main)).2.2.2 4
      [(env_main, Op.begin), (env_main, Op.begin), (env_main, Op.drain 1),
       (env_iothread, Op.begin), (env_iothread, Op.drain 1)]).1⟩

/-! ## The race between a cross-thread drain and the last end -/

/-- C3, evaluated on the code: the four steps on a counter with count 1 and
the flag clear.
In the interleaving drainer, drainer, ender, ender the drainer stores the
flag and reads count 1, then the ender decrements to 0 and, having fetched 1,
skips the notify step: the read did not observe 0 and no kick is issued.  No
interleaving issues a kick at all, so it is not the case that in every
interleaving the read observes 0 or a kick is issued. -/
theorem drain_end_race_loses_wakeup :
    [Thread.drainer, Thread.drainer, Thread.ender, Thread.ender] ∈ interleavings ∧
    exec env_main [Thread.drainer, Thread.drainer, Thread.ender, Thread.ender]
        (Machine.init ⟨1, false⟩) = ⟨⟨⟨0, true⟩, [], 0⟩, 2, some 1, 2, 1⟩ ∧
    (∀ s ∈ interleavings, (exec env_main s (Machine.init ⟨1, false⟩)).w.kicks = []) ∧
    ¬ (∀ s ∈ interleavings,
        (exec env_main s (Machine.init ⟨1, false⟩)).drain_read = some 0 ∨
        (exec env_main s (Machine.init ⟨1, false⟩)).w.kicks ≠ []) := by
  decide

end ReqCount
